import Mathlib

/-!
Verification of the NILM event-detector pipeline (`src/dsp_esp32`).

The C sources are shallowly embedded below.  Machine `float` arithmetic is
modelled by exact rational arithmetic (`ℚ`); `uint32_t` millisecond
timestamps are modelled by `ℕ` together with an explicit wrap-around
subtraction `usub32`.  Each definition mirrors one function or table of the
source files `main_NILM_Event_Detector.c`, `nilm_filters.c`,
`nilm_filters.h`.
-/

namespace NILM

/-! ## Device classifier (`nilm_filters.h`, `nilm_filters.c`) -/

/-- `device_type_t` from `nilm_filters.h`. -/
inductive device_type_t where
  | DEVICE_UNKNOWN
  | DEVICE_LIGHT
  | DEVICE_MICROWAVE
  | DEVICE_WASHING_MACHINE
  | DEVICE_DISHWASHER
  | DEVICE_REFRIGERATOR
  | DEVICE_AIR_CONDITIONER
  | DEVICE_WATER_HEATER
  | DEVICE_TV
  | DEVICE_COMPUTER
  | DEVICE_OTHER
deriving DecidableEq

export device_type_t (DEVICE_UNKNOWN DEVICE_LIGHT DEVICE_MICROWAVE
  DEVICE_WASHING_MACHINE DEVICE_DISHWASHER DEVICE_REFRIGERATOR
  DEVICE_AIR_CONDITIONER DEVICE_WATER_HEATER DEVICE_TV DEVICE_COMPUTER
  DEVICE_OTHER)

/-- `device_power_range_t` from `nilm_filters.h`. -/
structure device_power_range_t where
  type : device_type_t
  name : String
  min_power : ℚ
  max_power : ℚ
deriving DecidableEq

/-- The static `device_table` from `nilm_filters.h`, in declaration order. -/
def device_table : List device_power_range_t :=
  [ ⟨DEVICE_LIGHT,           "Light",            5,    100⟩,
    ⟨DEVICE_TV,              "Television",       50,   200⟩,
    ⟨DEVICE_COMPUTER,        "Computer",         100,  400⟩,
    ⟨DEVICE_MICROWAVE,       "Microwave",        800,  1500⟩,
    ⟨DEVICE_DISHWASHER,      "Dishwasher",       1200, 2000⟩,
    ⟨DEVICE_WASHING_MACHINE, "Washing Machine",  500,  2500⟩,
    ⟨DEVICE_AIR_CONDITIONER, "Air Conditioner",  1000, 3000⟩,
    ⟨DEVICE_WATER_HEATER,    "Water Heater",     1500, 4000⟩,
    ⟨DEVICE_REFRIGERATOR,    "Refrigerator",     100,  300⟩ ]

/-- `classify_device_by_power` from `nilm_filters.c`: linear scan of
`device_table` returning the first entry whose inclusive range contains
`|delta_power|`; on no match `DEVICE_OTHER` if the magnitude exceeds 50 W,
else `DEVICE_UNKNOWN`. -/
def classify_device_by_power (delta_power : ℚ) : device_type_t :=
  match device_table.find?
      (fun e => decide (e.min_power ≤ |delta_power| ∧
        |delta_power| ≤ e.max_power)) with
  | some e => e.type
  | none => if 50 < |delta_power| then DEVICE_OTHER else DEVICE_UNKNOWN

/-! ## Event detector (`main_NILM_Event_Detector.c`, `detect_events`) -/

/-- `EVENT_THRESHOLD` (50 W) from `main_NILM_Event_Detector.c`. -/
def EVENT_THRESHOLD : ℚ := 50

/-- `DEBOUNCE_TIME_MS` (2000 ms) from `main_NILM_Event_Detector.c`. -/
def DEBOUNCE_TIME_MS : ℕ := 2000

/-- `2^32`, the modulus of the `uint32_t` timestamps. -/
def UINT32_MOD : ℕ := 4294967296

/-- `uint32_t` subtraction `a - b` (wrap-around), as used by
`current_time - last_event_time` in `detect_events`. -/
def usub32 (a b : ℕ) : ℕ :=
  (a + (UINT32_MOD - b % UINT32_MOD)) % UINT32_MOD

/-- The event record logged by `detect_events` on an accepted detection
(event type, device type, instantaneous power, filtered delta, time). -/
structure EventRec where
  etype : String
  dtype : String
  power : ℚ
  delta : ℚ
  time : ℕ

/-- `detect_events` from `main_NILM_Event_Detector.c`: given the current
power, the filtered power, the current time and the `last_event_time`
state, returns the new `last_event_time` and the emitted event (if any). -/
def detect_events (current_power filtered_power : ℚ) (current_time : ℕ)
    (last_event_time : ℕ) : ℕ × Option EventRec :=
  if usub32 current_time last_event_time < DEBOUNCE_TIME_MS then
    (last_event_time, none)
  else if EVENT_THRESHOLD < |filtered_power| then
    let etype := if 0 < filtered_power then "ON" else "OFF"
    let dtype :=
      if 0 < filtered_power then
        if 2000 < current_power then "heating"
        else if 500 < current_power then "appliance"
        else if 100 < current_power then "lighting"
        else "small_load"
      else "unknown"
    (current_time,
      some ⟨etype, dtype, current_power, filtered_power, current_time⟩)
  else (last_event_time, none)

/-- Feed a list of `(current_power, filtered_power, current_time)` triples
through `detect_events` in order, collecting the emitted events. -/
def detect_run (last_event_time : ℕ) :
    List (ℚ × ℚ × ℕ) → ℕ × List EventRec
  | [] => (last_event_time, [])
  | (p, f, t) :: rest =>
    let r := detect_events p f t last_event_time
    let k := detect_run r.1 rest
    (k.1, r.2.toList ++ k.2)

/-! ## Sample accumulator / decimator (`main_NILM_Event_Detector.c`, `cbTask`) -/

/-- `DECIMATION_FACTOR` (2000) from `main_NILM_Event_Detector.c`. -/
def DECIMATION_FACTOR : ℕ := 2000

/-- The ADC-count-to-volts conversion `data * 3.3f / 4095.0f` applied by
`cbTask` to each raw 12-bit sample. -/
def adcToVolts (data : ℕ) : ℚ := data * (33 / 10) / 4095

/-- State of the decimation loop in `cbTask`: the two running voltage sums,
the shared `decimation_counter`, and the list of `(voltage[0], voltage[1])`
pairs emitted so far. -/
structure DecState where
  sum0 : ℚ
  sum1 : ℚ
  cnt : ℕ
  outs : List (ℚ × ℚ)

/-- One iteration of the per-sample loop of `cbTask` on the raw sample
`(channel, data)`: accumulate into the matching channel's sum, increment the
shared counter, and on reaching `DECIMATION_FACTOR` emit
`(sum0 / D, sum1 / D)` and reset both sums and the counter. -/
def decStep (s : DecState) (sample : ℕ × ℕ) : DecState :=
  let sum0 := if sample.1 = 4 then s.sum0 + adcToVolts sample.2 else s.sum0
  let sum1 :=
    if sample.1 = 4 then s.sum1
    else if sample.1 = 5 then s.sum1 + adcToVolts sample.2 else s.sum1
  let cnt := s.cnt + 1
  if DECIMATION_FACTOR ≤ cnt then
    ⟨0, 0, 0,
      s.outs ++ [(sum0 / (DECIMATION_FACTOR : ℚ), sum1 / (DECIMATION_FACTOR : ℚ))]⟩
  else ⟨sum0, sum1, cnt, s.outs⟩

/-- Run the decimation loop from an arbitrary state. -/
def decRunFrom (s : DecState) (l : List (ℕ × ℕ)) : DecState :=
  l.foldl decStep s

/-- Run the decimation loop from the initial state of the C file
(`voltage_sum = {0,0}`, `decimation_counter = 0`). -/
def runDecimator (l : List (ℕ × ℕ)) : DecState :=
  decRunFrom ⟨0, 0, 0, []⟩ l

/-- Sum, in volts, of the raw samples of list `l` belonging to channel
`c`. -/
def chSum (c : ℕ) (l : List (ℕ × ℕ)) : ℚ :=
  (l.map (fun p => if p.1 = c then adcToVolts p.2 else 0)).sum

/-- Number of raw samples of list `l` belonging to channel `c`. -/
def chCount (c : ℕ) (l : List (ℕ × ℕ)) : ℕ :=
  (l.filter (fun p => p.1 == c)).length

/-- Concrete decimator input: 2000 samples on channel 4 (value 4095) and
2000 samples on channel 5 (value 0), strictly alternating, so each channel
receives exactly `DECIMATION_FACTOR` raw samples. -/
def decAlternatingInput : List (ℕ × ℕ) :=
  (List.replicate 2000 [((4 : ℕ), (4095 : ℕ)), ((5 : ℕ), (0 : ℕ))]).flatten

/-- Concrete decimator input for the amended decimation law: 2000 samples
in total (1000 per channel, alternating, all at full scale 4095). -/
def decWitnessInput : List (ℕ × ℕ) :=
  (List.replicate 1000 [((4 : ℕ), (4095 : ℕ)), ((5 : ℕ), (4095 : ℕ))]).flatten

/-! ## Baseline estimator (`main_NILM_Event_Detector.c`, `nilmTask`) -/

/-- `POWER_BUFFER_SIZE` (100) from `main_NILM_Event_Detector.c`. -/
def POWER_BUFFER_SIZE : ℕ := 100

/-- State of the baseline estimator in `nilmTask`: the circular
`power_buffer`, the write cursor `power_index`, the `power_buffer_full`
flag, and the last computed `baseline_power` (`none` while the guard
`if (power_buffer_full)` has never run, i.e. while no baseline has been
computed). -/
structure PowerState where
  buf : List ℚ
  idx : ℕ
  full : Bool
  baseline : Option ℚ

/-- The baseline-estimation fragment of `nilmTask` for one power sample:
store into `power_buffer[power_index]`, advance the cursor modulo
`POWER_BUFFER_SIZE`, set `power_buffer_full` once the cursor wraps, and if
full recompute `baseline_power` as the buffer mean. -/
def nilmPush (s : PowerState) (p : ℚ) : PowerState :=
  let buf := s.buf.set s.idx p
  let idx := (s.idx + 1) % POWER_BUFFER_SIZE
  let full := s.full || decide (idx = 0)
  let baseline :=
    if full then some (buf.sum / (POWER_BUFFER_SIZE : ℚ)) else s.baseline
  ⟨buf, idx, full, baseline⟩

/-- Initial baseline state: a zeroed buffer, cursor 0, not full. -/
def powerInit : PowerState :=
  ⟨List.replicate POWER_BUFFER_SIZE 0, 0, false, none⟩

/-- Push a whole list of power samples, oldest first. -/
def runPower (xs : List ℚ) : PowerState :=
  xs.foldl nilmPush powerInit

/-- The buffer contents predicted after pushing the history `xs`: with
`n = xs.length` and `r = n % 100`, slots `0 … r-1` hold the newest `r`
samples and slots `r … 99` hold the 100-r samples before those (zeros while
the buffer has not yet filled). -/
def ringWindow (xs : List ℚ) : List ℚ :=
  xs.drop (xs.length - xs.length % 100) ++
    (if 100 ≤ xs.length then
      (xs.drop (xs.length - 100)).take (100 - xs.length % 100)
    else List.replicate (100 - xs.length % 100) 0)

/-! ## High-pass filter cascade of the main pipeline
(`main_NILM_Event_Detector.c`, `filter_coeffs`, `apply_biquad`,
`apply_highpass_filter`) -/

/-- One row of `filter_coeffs`: `[b0, b1, b2, a0, a1, a2]`. -/
structure Coeffs6 where
  b0 : ℚ
  b1 : ℚ
  b2 : ℚ
  a0 : ℚ
  a1 : ℚ
  a2 : ℚ

/-- The `filter_coeffs` table of `main_NILM_Event_Detector.c` (Butterworth
6th-order high-pass, fc = 0.002 Hz at fs = 10 Hz, three biquad rows). -/
def filter_coeffs : Fin 3 → Coeffs6
  | 0 => ⟨0.999001949317, -1.998003898634, 0.999001949317,
          1, -1.998001949634, 0.998005898268⟩
  | 1 => ⟨1, -2, 1, 1, -1.997003947368, 0.997005896736⟩
  | 2 => ⟨1, -2, 1, 1, -1.996007894737, 0.996009844211⟩

/-- `biquad_state_t` of `main_NILM_Event_Detector.c`: the three stored
inputs `x[0..2]` and three stored outputs `y[0..2]` of one section. -/
structure biquad_state_t where
  x0 : ℚ
  x1 : ℚ
  x2 : ℚ
  y0 : ℚ
  y1 : ℚ
  y2 : ℚ

/-- The zero-initialized section state (`memset(filter_states, 0, ...)`). -/
def biquadZero : biquad_state_t := ⟨0, 0, 0, 0, 0, 0⟩

/-- `apply_biquad` of `main_NILM_Event_Detector.c` for one section: shift
the inputs, then compute
`out = b0*x[0] + b1*x[1] + b2*x[2] - a1*y[1] - a2*y[2]` with the *not yet
shifted* outputs `y[1]`, `y[2]`, then shift the outputs (`y[0] := out`). -/
def apply_biquad (c : Coeffs6) (input : ℚ) (s : biquad_state_t) :
    ℚ × biquad_state_t :=
  let x0 := input
  let x1 := s.x0
  let x2 := s.x1
  let output := c.b0 * x0 + c.b1 * x1 + c.b2 * x2 - c.a1 * s.y1 - c.a2 * s.y2
  (output, ⟨x0, x1, x2, output, s.y0, s.y1⟩)

/-- The three `filter_states` of `main_NILM_Event_Detector.c`. -/
structure CascadeState where
  s0 : biquad_state_t
  s1 : biquad_state_t
  s2 : biquad_state_t

/-- All-zero cascade state (startup state of `app_main`). -/
def cascadeZero : CascadeState := ⟨biquadZero, biquadZero, biquadZero⟩

/-- `apply_highpass_filter` of `main_NILM_Event_Detector.c`: the three
sections of `apply_biquad` in series. -/
def apply_highpass_filter (input : ℚ) (st : CascadeState) :
    ℚ × CascadeState :=
  let r0 := apply_biquad (filter_coeffs 0) input st.s0
  let r1 := apply_biquad (filter_coeffs 1) r0.1 st.s1
  let r2 := apply_biquad (filter_coeffs 2) r1.1 st.s2
  (r2.1, ⟨r0.2, r1.2, r2.2⟩)

/-- Cascade state after feeding `n` copies of the constant input `c`,
starting from the zero state. -/
def hpIterState (c : ℚ) : ℕ → CascadeState
  | 0 => cascadeZero
  | n + 1 => (apply_highpass_filter c (hpIterState c n)).2

/-- Output of the main cascade on the `(n+1)`-th sample of the constant
input `c`, starting from the zero state. -/
def hpOut (c : ℚ) (n : ℕ) : ℚ :=
  (apply_highpass_filter c (hpIterState c n)).1

/-- Outputs of the main cascade on the input list `l`, starting from state
`st`. -/
def hpRun (st : CascadeState) : List ℚ → List ℚ
  | [] => []
  | h :: t =>
    let r := apply_highpass_filter h st
    r.1 :: hpRun r.2 t

/-! ## Library biquad (`nilm_filters.h`, `nilm_filters.c`) -/

/-- `biquad_section_t` from `nilm_filters.h`: five coefficients and the two
Direct-Form-II-Transposed states `w1`, `w2`. -/
structure biquad_section_t where
  b0 : ℚ
  b1 : ℚ
  b2 : ℚ
  a1 : ℚ
  a2 : ℚ
  w1 : ℚ
  w2 : ℚ

/-- `apply_biquad_section` from `nilm_filters.c` (Direct Form II
Transposed):
`output = b0*input + w1`, `w1 := b1*input - a1*output + w2`,
`w2 := b2*input - a2*output`. -/
def apply_biquad_section (input : ℚ) (s : biquad_section_t) :
    ℚ × biquad_section_t :=
  let output := s.b0 * input + s.w1
  let w1 := s.b1 * input - s.a1 * output + s.w2
  let w2 := s.b2 * input - s.a2 * output
  (output, { s with w1 := w1, w2 := w2 })

/-- `hp_filter_coeffs` from `nilm_filters.h` (rows `[b0, b1, b2, a1, a2]`). -/
def hp_filter_coeffs : Fin 3 → ℚ × ℚ × ℚ × ℚ × ℚ
  | 0 => (0.997575307740, -1.988312337657, 0.990752632414,
          -1.991046493047, 0.991071281177)
  | 1 => (1, -2.006874965307, 1.006890743483,
          -2.005708281949, 1.005721304286)
  | 2 => (1, -1.999979933536, 0.999995642535,
          -1.998389952299, 0.998409811440)

/-- A zero-state Direct-Form-II-Transposed section built from one row of
the main pipeline's `filter_coeffs` (as `init_filter_sections` does from a
coefficient row: `w1 = w2 = 0`). -/
def sectionOfCoeffs (c : Coeffs6) : biquad_section_t :=
  ⟨c.b0, c.b1, c.b2, c.a1, c.a2, 0, 0⟩

/-- The spec's filter contract (`filter(powerSample)` of spec §4.3): the
sample runs through three fixed biquad sections in series, each realized in
Direct-Form-II-Transposed form with two state values, using the main
pipeline's coefficient rows.  Returns the output and the three updated
sections. -/
def specFilterStep (input : ℚ)
    (secs : biquad_section_t × biquad_section_t × biquad_section_t) :
    ℚ × (biquad_section_t × biquad_section_t × biquad_section_t) :=
  let r0 := apply_biquad_section input secs.1
  let r1 := apply_biquad_section r0.1 secs.2.1
  let r2 := apply_biquad_section r1.1 secs.2.2
  (r2.1, (r0.2, r1.2, r2.2))

/-- Outputs of the spec's Direct-Form-II-Transposed cascade on input list
`l`. -/
def specFilterRun
    (secs : biquad_section_t × biquad_section_t × biquad_section_t) :
    List ℚ → List ℚ
  | [] => []
  | h :: t =>
    let r := specFilterStep h secs
    r.1 :: specFilterRun r.2 t

/-- The spec cascade's three sections built from the main pipeline's
`filter_coeffs`, zero-initialized. -/
def specSectionsInit : biquad_section_t × biquad_section_t × biquad_section_t :=
  (sectionOfCoeffs (filter_coeffs 0), sectionOfCoeffs (filter_coeffs 1),
    sectionOfCoeffs (filter_coeffs 2))

/-- Spec cascade state after feeding `n` copies of the constant input `c`,
from the zero-initialized sections. -/
def specIterState (c : ℚ) :
    ℕ → biquad_section_t × biquad_section_t × biquad_section_t
  | 0 => specSectionsInit
  | n + 1 => (specFilterStep c (specIterState c n)).2

/-- Output of the spec cascade on the `(n+1)`-th sample of the constant
input `c`. -/
def specOut (c : ℚ) (n : ℕ) : ℚ :=
  (specFilterStep c (specIterState c n)).1

/-! ## Generic single biquads over the reals

For the refinement comparison of the two implementations, the two biquad
realizations are restated over `ℝ` ("exact (real) arithmetic") with the
coefficient 5-tuple as a parameter. -/

/-- `biquad_state_t` of the main file over `ℝ`: three stored inputs and
three stored outputs. -/
structure DF1StateR where
  x0 : ℝ
  x1 : ℝ
  x2 : ℝ
  y0 : ℝ
  y1 : ℝ
  y2 : ℝ

/-- The zero-initialized `DF1StateR`. -/
def df1Zero : DF1StateR := ⟨0, 0, 0, 0, 0, 0⟩

/-- The main file's `apply_biquad` over `ℝ` with an arbitrary coefficient
5-tuple: shift inputs, compute the output from the pre-shift `y[1]`, `y[2]`
(i.e. the feedback taps as the code actually reads them), then shift the
outputs. -/
def mainBiquadStep (b0 b1 b2 a1 a2 : ℝ) (input : ℝ) (s : DF1StateR) :
    ℝ × DF1StateR :=
  let output := b0 * input + b1 * s.x0 + b2 * s.x1 - a1 * s.y1 - a2 * s.y2
  (output, ⟨input, s.x0, s.x1, output, s.y0, s.y1⟩)

/-- Output sequence of the main file's biquad on an input list. -/
def mainBiquadRun (b0 b1 b2 a1 a2 : ℝ) (s : DF1StateR) : List ℝ → List ℝ
  | [] => []
  | h :: t =>
    let r := mainBiquadStep b0 b1 b2 a1 a2 h s
    r.1 :: mainBiquadRun b0 b1 b2 a1 a2 r.2 t

/-- The standard Direct-Form-I biquad over `ℝ`: identical to
`mainBiquadStep` except that the feedback is taken from the two *most
recent* outputs `y[0]`, `y[1]`, i.e.
`out_n = b0 x_n + b1 x_(n-1) + b2 x_(n-2) - a1 out_(n-1) - a2 out_(n-2)`. -/
def df1FixedStep (b0 b1 b2 a1 a2 : ℝ) (input : ℝ) (s : DF1StateR) :
    ℝ × DF1StateR :=
  let output := b0 * input + b1 * s.x0 + b2 * s.x1 - a1 * s.y0 - a2 * s.y1
  (output, ⟨input, s.x0, s.x1, output, s.y0, s.y1⟩)

/-- Output sequence of the standard Direct-Form-I biquad on an input
list. -/
def df1FixedRun (b0 b1 b2 a1 a2 : ℝ) (s : DF1StateR) : List ℝ → List ℝ
  | [] => []
  | h :: t =>
    let r := df1FixedStep b0 b1 b2 a1 a2 h s
    r.1 :: df1FixedRun b0 b1 b2 a1 a2 r.2 t

/-- The library's `apply_biquad_section` (Direct Form II Transposed) over
`ℝ`, with the states `(w1, w2)` passed explicitly. -/
def dfiitStep (b0 b1 b2 a1 a2 : ℝ) (input w1 w2 : ℝ) : ℝ × ℝ × ℝ :=
  let output := b0 * input + w1
  (output, b1 * input - a1 * output + w2, b2 * input - a2 * output)

/-- Output sequence of the library's Direct-Form-II-Transposed biquad on an
input list. -/
def dfiitRun (b0 b1 b2 a1 a2 : ℝ) (w1 w2 : ℝ) : List ℝ → List ℝ
  | [] => []
  | h :: t =>
    let r := dfiitStep b0 b1 b2 a1 a2 h w1 w2
    r.1 :: dfiitRun b0 b1 b2 a1 a2 r.2.1 r.2.2 t

/-! # Theorems -/

/-! ## C5, C6, C10: device classifier -/

/-- C5, counterexample: the claim says `classify(150.0)` returns
`Computer`; in fact the first entry of `device_table` whose range contains
150 is `Television` (`[50,200]`, declared second), so the code returns
`DEVICE_TV`, not `DEVICE_COMPUTER`. -/
theorem classify_150_not_computer :
    classify_device_by_power 150 = DEVICE_TV ∧
      classify_device_by_power 150 ≠ DEVICE_COMPUTER := by
  decide

/-- C5, amended: `classify(150.0)` returns the first entry in declared
table order whose inclusive range contains 150, namely `Television`
(range `[50,200]`, declared before `Computer` `[100,400]` and
`Refrigerator` `[100,300]`); first-match-wins on declared order is the
tie-break for overlapping ranges. -/
theorem classify_150_first_match :
    classify_device_by_power 150 = DEVICE_TV ∧
      device_table.find?
          (fun e => decide (e.min_power ≤ |(150 : ℚ)| ∧
            |(150 : ℚ)| ≤ e.max_power)) =
        some ⟨DEVICE_TV, "Television", 50, 200⟩ := by
  decide

/-- C6: the classifier is total; when no table range contains the absolute
magnitude it returns `DEVICE_OTHER` if the magnitude exceeds the fixed 50 W
floor and `DEVICE_UNKNOWN` otherwise. -/
theorem classify_total_no_match (x : ℚ)
    (h : ∀ e ∈ device_table, ¬(e.min_power ≤ |x| ∧ |x| ≤ e.max_power)) :
    classify_device_by_power x =
      if 50 < |x| then DEVICE_OTHER else DEVICE_UNKNOWN := by
  have hfind : device_table.find?
      (fun e => decide (e.min_power ≤ |x| ∧ |x| ≤ e.max_power)) = none := by
    apply List.find?_eq_none.mpr
    intro e he
    simpa using h e he
  unfold classify_device_by_power
  rw [hfind]

/-- C6, witness at `x = 3`: no range of `device_table` contains 3 (the
smallest lower bound is 5 W), and the classifier returns `DEVICE_UNKNOWN`
since 3 does not exceed the 50 W floor. -/
theorem classify_total_no_match_witness :
    (∀ e ∈ device_table,
        ¬(e.min_power ≤ |(3 : ℚ)| ∧ |(3 : ℚ)| ≤ e.max_power)) ∧
      classify_device_by_power 3 =
        if 50 < |(3 : ℚ)| then DEVICE_OTHER else DEVICE_UNKNOWN :=
  ⟨by decide, classify_total_no_match 3 (by decide)⟩

/-- C10: classification depends only on the absolute magnitude of the power
delta, so the classifier is sign-symmetric. -/
theorem classify_sign_symmetric (x : ℚ) :
    classify_device_by_power (-x) = classify_device_by_power x := by
  unfold classify_device_by_power
  rw [abs_neg]

/-! ## C3, C7: event detector debounce -/

/-- `uint32_t` subtraction agrees with truncated subtraction when no wrap
occurs. -/
theorem usub32_eq {a b : ℕ} (h1 : b ≤ a) (h2 : a < UINT32_MOD) :
    usub32 a b = a - b := by
  unfold usub32 UINT32_MOD at *
  omega

/-- `detect_events` inside the debounce window: suppress, no state
change. -/
theorem detect_events_suppress (p f : ℚ) (t L : ℕ)
    (hdeb : usub32 t L < DEBOUNCE_TIME_MS) :
    detect_events p f t L = (L, none) := by
  unfold detect_events
  rw [if_pos hdeb]

/-- `detect_events` outside the debounce window with an above-threshold
filtered value: accept, update `last_event_time`, emit one record. -/
theorem detect_events_accept (p f : ℚ) (t L : ℕ)
    (hdeb : ¬ usub32 t L < DEBOUNCE_TIME_MS)
    (hf : EVENT_THRESHOLD < |f|) :
    detect_events p f t L =
      (t, some ⟨if 0 < f then "ON" else "OFF",
        if 0 < f then
          if 2000 < p then "heating"
          else if 500 < p then "appliance"
          else if 100 < p then "lighting"
          else "small_load"
        else "unknown", p, f, t⟩) := by
  unfold detect_events
  rw [if_neg hdeb, if_pos hf]

/-- `detect_events` outside the debounce window with a below-threshold
filtered value: no event, no state change. -/
theorem detect_events_low (p f : ℚ) (t L : ℕ)
    (hdeb : ¬ usub32 t L < DEBOUNCE_TIME_MS)
    (hf : ¬ EVENT_THRESHOLD < |f|) :
    detect_events p f t L = (L, none) := by
  unfold detect_events
  rw [if_neg hdeb, if_neg hf]

/-- C3, counterexample: from the initial state (`last_event_time = 0`), two
above-threshold samples at t = 100 ms and t = 2300 ms are separated by
2200 ms, *more* than the 2000 ms debounce window, yet produce exactly one
event record (the claim says exactly two): the timestamp 0 of the initial
state suppresses the first sample. -/
theorem debounce_two_events_cex :
    DEBOUNCE_TIME_MS < 2300 - 100 ∧
      EVENT_THRESHOLD < |(100 : ℚ)| ∧
      (detect_run 0 [(100, 100, 100), (100, 100, 2300)]).2.length = 1 := by
  have h1 : usub32 100 0 = 100 := usub32_eq (by omega) (by norm_num [UINT32_MOD])
  have h3 : usub32 2300 0 = 2300 := usub32_eq (by omega) (by norm_num [UINT32_MOD])
  have hs := detect_events_suppress 100 100 100 0
    (by rw [h1]; norm_num [DEBOUNCE_TIME_MS])
  have ha := detect_events_accept 100 100 2300 0
    (by rw [h3]; norm_num [DEBOUNCE_TIME_MS]) (by norm_num [EVENT_THRESHOLD])
  refine ⟨by norm_num [DEBOUNCE_TIME_MS], by norm_num [EVENT_THRESHOLD], ?_⟩
  simp [detect_run, hs, ha]

/-- C3, amended: provided the first of the two above-threshold samples is
itself eligible (it arrives at least `DEBOUNCE_TIME_MS` after the last
accepted event's timestamp, which is 0 at startup), two above-threshold
samples separated by less than the debounce window produce exactly one
event record, and separated by at least the debounce window produce exactly
two. -/
theorem debounce_two_events_amended (L t1 t2 : ℕ) (p1 f1 p2 f2 : ℚ)
    (hL : L ≤ t1) (h12 : t1 ≤ t2) (ht : t2 < UINT32_MOD)
    (he : DEBOUNCE_TIME_MS ≤ t1 - L)
    (hf1 : EVENT_THRESHOLD < |f1|) (hf2 : EVENT_THRESHOLD < |f2|) :
    (t2 - t1 < DEBOUNCE_TIME_MS →
      (detect_run L [(p1, f1, t1), (p2, f2, t2)]).2.length = 1) ∧
    (DEBOUNCE_TIME_MS ≤ t2 - t1 →
      (detect_run L [(p1, f1, t1), (p2, f2, t2)]).2.length = 2) := by
  have hu1 : usub32 t1 L = t1 - L := usub32_eq hL (lt_of_le_of_lt h12 ht)
  have hu2 : usub32 t2 t1 = t2 - t1 := usub32_eq h12 ht
  have hd1 : ¬ usub32 t1 L < DEBOUNCE_TIME_MS := by rw [hu1]; omega
  constructor
  · intro hcase
    have hd2 : usub32 t2 t1 < DEBOUNCE_TIME_MS := by rw [hu2]; exact hcase
    simp [detect_run, detect_events_accept p1 f1 t1 L hd1 hf1,
      detect_events_suppress p2 f2 t2 t1 hd2]
  · intro hcase
    have hd2 : ¬ usub32 t2 t1 < DEBOUNCE_TIME_MS := by rw [hu2]; omega
    simp [detect_run, detect_events_accept p1 f1 t1 L hd1 hf1,
      detect_events_accept p2 f2 t2 t1 hd2 hf2]

/-- C3, witness: with `last_event_time = 0` and eligible first sample at
t = 2000 ms, a second above-threshold sample at t = 2500 ms (separated by
500 ms < debounce) yields exactly one event record. -/
theorem debounce_two_events_witness :
    ((0 : ℕ) ≤ 2000 ∧ (2000 : ℕ) ≤ 2500 ∧ (2500 : ℕ) < UINT32_MOD ∧
      DEBOUNCE_TIME_MS ≤ 2000 - 0 ∧ EVENT_THRESHOLD < |(100 : ℚ)| ∧
      2500 - 2000 < DEBOUNCE_TIME_MS) ∧
    (detect_run 0 [(100, 100, 2000), (100, 100, 2500)]).2.length = 1 :=
  ⟨by decide,
    (debounce_two_events_amended 0 2000 2500 100 100 100 100 (by decide)
      (by decide) (by decide) (by decide) (by decide) (by decide)).1
      (by decide)⟩

/-- C7: inside the debounce window `detect_events` emits nothing and
changes no state, regardless of the filtered magnitude; and whenever the
`last_event_time` state changes at all, an event was emitted, the debounce
window had elapsed, the filtered magnitude exceeded the threshold, and the
state was set to the current time. -/
theorem debounce_frame_effect (p f : ℚ) (now L : ℕ) :
    (usub32 now L < DEBOUNCE_TIME_MS → detect_events p f now L = (L, none)) ∧
    ((detect_events p f now L).1 ≠ L →
      (detect_events p f now L).2.isSome = true ∧
      DEBOUNCE_TIME_MS ≤ usub32 now L ∧ EVENT_THRESHOLD < |f| ∧
      (detect_events p f now L).1 = now) := by
  constructor
  · intro h
    exact detect_events_suppress p f now L h
  · intro hne
    by_cases hdeb : usub32 now L < DEBOUNCE_TIME_MS
    · rw [detect_events_suppress p f now L hdeb] at hne
      exact absurd rfl hne
    · by_cases hf : EVENT_THRESHOLD < |f|
      · rw [detect_events_accept p f now L hdeb hf]
        exact ⟨rfl, le_of_not_lt hdeb, hf, rfl⟩
      · rw [detect_events_low p f now L hdeb hf] at hne
        exact absurd rfl hne

/-- C7, witness: at `now = 500`, `last_event_time = 0` the elapsed time is
inside the debounce window, and indeed nothing is emitted and the state is
unchanged even though the filtered magnitude 100 is far above threshold. -/
theorem debounce_frame_effect_witness :
    usub32 500 0 < DEBOUNCE_TIME_MS ∧
      detect_events 10 100 500 0 = (0, none) :=
  ⟨by decide, (debounce_frame_effect 10 100 500 0).1 (by decide)⟩

/-! ## C2, C8: the main pipeline's filter cascade is not the declared
Direct-Form-II-Transposed cascade, and it diverges on constant input -/

set_option maxRecDepth 100000 in
/-- C2: evaluating the code at the failing input.  On the constant input
1, the main pipeline's cascade (`apply_biquad`, which reads its feedback
from `y[1]`, `y[2]` after having shifted the fresh output only into
`y[0]`) already differs at the second output sample from the
Direct-Form-II-Transposed cascade over the same `filter_coeffs` that the
code's own comment and the spec describe: the main cascade's second output
is negative (about -4.995) while the Direct-Form-II-Transposed cascade's
is positive (about 0.990). -/
theorem main_filter_not_dfiit_eval :
    hpOut 1 1 < 0 ∧ 0 < specOut 1 1 ∧ hpOut 1 1 < specOut 1 1 :=
  ⟨by with_unfolding_all decide, by with_unfolding_all decide,
    by with_unfolding_all decide⟩

set_option maxRecDepth 100000 in
/-- C8: evaluating the code at the failing input.  On the constant input
1 W the main cascade's output does not decay to zero: the 7th output
sample already exceeds +500 and the 8th is below -1000 (the outputs
roughly double in magnitude every sample with alternating sign, because
the feedback taps are one sample late, so each section follows the
recurrence `y[n] = b-terms - a1*y[n-2] - a2*y[n-3]`, whose characteristic
root near -1.616 lies outside the unit circle). -/
theorem main_highpass_diverges_on_constant :
    500 < hpOut 1 6 ∧ hpOut 1 7 < -1000 :=
  ⟨by with_unfolding_all decide, by with_unfolding_all decide⟩

/-! ## C9: Direct-Form-I vs Direct-Form-II-Transposed -/

/-- C9, counterexample: with coefficients `(b0,b1,b2,a1,a2) = (1,0,0,1,0)`
and input `[1, 0]`, the main file's biquad outputs `[1, 0]` while the
library's Direct-Form-II-Transposed biquad outputs `[1, -1]`: the main
biquad's feedback is one sample late, so the two implementations are *not*
equivalent. -/
theorem main_biquad_dfiit_cex :
    mainBiquadRun 1 0 0 1 0 df1Zero [1, 0] ≠ dfiitRun 1 0 0 1 0 0 0 [1, 0] := by
  norm_num [mainBiquadRun, dfiitRun, mainBiquadStep, dfiitStep, df1Zero]

/-- Invariant carrying the Direct-Form-I ↔ Direct-Form-II-Transposed state
correspondence `w1 = b1*x0 + b2*x1 - a1*y0 - a2*y1`, `w2 = b2*x0 - a2*y0`
through a run. -/
theorem df1Fixed_eq_dfiit_aux (b0 b1 b2 a1 a2 : ℝ) :
    ∀ (l : List ℝ) (x0 x1 x2 y0 y1 y2 w1 w2 : ℝ),
      w1 = b1 * x0 + b2 * x1 - a1 * y0 - a2 * y1 →
      w2 = b2 * x0 - a2 * y0 →
      df1FixedRun b0 b1 b2 a1 a2 ⟨x0, x1, x2, y0, y1, y2⟩ l =
        dfiitRun b0 b1 b2 a1 a2 w1 w2 l := by
  intro l
  induction l with
  | nil => intros; rfl
  | cons h t ih =>
    intro x0 x1 x2 y0 y1 y2 w1 w2 hw1 hw2
    simp only [df1FixedRun, dfiitRun, df1FixedStep, dfiitStep]
    have hout : b0 * h + w1 =
        b0 * h + b1 * x0 + b2 * x1 - a1 * y0 - a2 * y1 := by
      rw [hw1]; ring
    refine congrArg₂ List.cons hout.symm ?_
    refine ih h x0 x1 _ y0 y1 _ _ ?_ ?_
    · rw [hw1, hw2]; ring
    · rw [hw1]; ring

/-- C9, amended: the library's Direct-Form-II-Transposed biquad is
equivalent, for every coefficient 5-tuple and every finite input sequence
in exact arithmetic from zero state, to the *standard* Direct-Form-I
recurrence (feedback from the two most recent outputs); the main file's
biquad deviates from that recurrence by taking its feedback one sample
late. -/
theorem dfi_fixed_equiv_dfiit (b0 b1 b2 a1 a2 : ℝ) (l : List ℝ) :
    df1FixedRun b0 b1 b2 a1 a2 df1Zero l = dfiitRun b0 b1 b2 a1 a2 0 0 l :=
  df1Fixed_eq_dfiit_aux b0 b1 b2 a1 a2 l 0 0 0 0 0 0 0 0 (by ring) (by ring)

/-! ## C1: decimator -/

/-- Processing fewer samples than remain in the decimation period only
accumulates: per-channel sums grow by the channel sums of the input, the
shared counter grows by the total sample count, and nothing is emitted. -/
theorem decRunFrom_no_emit :
    ∀ (l : List (ℕ × ℕ)) (s : DecState),
      s.cnt + l.length < DECIMATION_FACTOR →
      decRunFrom s l =
        ⟨s.sum0 + chSum 4 l, s.sum1 + chSum 5 l, s.cnt + l.length, s.outs⟩ := by
  intro l
  induction l with
  | nil =>
    intro s _
    simp [decRunFrom, chSum]
  | cons p t ih =>
    intro s hlt
    have hlen : s.cnt + (p :: t).length = s.cnt + 1 + t.length := by
      simp [List.length_cons]; omega
    have hcnt : ¬ DECIMATION_FACTOR ≤ s.cnt + 1 := by
      rw [hlen] at hlt; omega
    have hstep : decStep s p =
        ⟨if p.1 = 4 then s.sum0 + adcToVolts p.2 else s.sum0,
          if p.1 = 4 then s.sum1
          else if p.1 = 5 then s.sum1 + adcToVolts p.2 else s.sum1,
          s.cnt + 1, s.outs⟩ := by
      unfold decStep
      rw [if_neg hcnt]
    have hfold : decRunFrom s (p :: t) = decRunFrom (decStep s p) t := by
      simp [decRunFrom]
    rw [hfold, hstep, ih _ (by rw [hlen] at hlt; simpa using hlt)]
    have hchs4 : chSum 4 (p :: t) =
        (if p.1 = 4 then adcToVolts p.2 else 0) + chSum 4 t := by
      simp [chSum]
    have hchs5 : chSum 5 (p :: t) =
        (if p.1 = 5 then adcToVolts p.2 else 0) + chSum 5 t := by
      simp [chSum]
    rw [hchs4, hchs5, hlen]
    by_cases h4 : p.1 = 4
    · simp only [h4, if_pos rfl]
      norm_num
      ring
    · by_cases h5 : p.1 = 5
      · simp only [h4, h5, if_neg, if_pos rfl]
        norm_num
        ring
      · simp only [if_neg h4, if_neg h5]
        norm_num

/-- Processing a list of samples that exactly completes the decimation
period emits exactly one pair, each component being that channel's
accumulated sum divided by the shared `DECIMATION_FACTOR`, and resets the
sums and the counter to zero. -/
theorem decRunFrom_emit (l : List (ℕ × ℕ)) (s : DecState)
    (hlen : s.cnt + l.length = DECIMATION_FACTOR) (hne : l ≠ []) :
    decRunFrom s l =
      ⟨0, 0, 0, s.outs ++
        [((s.sum0 + chSum 4 l) / (DECIMATION_FACTOR : ℚ),
          (s.sum1 + chSum 5 l) / (DECIMATION_FACTOR : ℚ))]⟩ := by
  rcases List.eq_nil_or_concat l with rfl | ⟨t, p, rfl⟩
  · exact absurd rfl hne
  · rw [List.concat_eq_append] at *
    have hlt : s.cnt + t.length < DECIMATION_FACTOR := by
      simp [List.length_append] at hlen; omega
    have hfold : decRunFrom s (t ++ [p]) =
        decStep (decRunFrom s t) p := by
      simp [decRunFrom]
    rw [hfold, decRunFrom_no_emit t s hlt]
    have hD : DECIMATION_FACTOR ≤ s.cnt + t.length + 1 := by
      simp [List.length_append] at hlen; omega
    have hchs4 : chSum 4 (t ++ [p]) =
        chSum 4 t + (if p.1 = 4 then adcToVolts p.2 else 0) := by
      simp [chSum]
    have hchs5 : chSum 5 (t ++ [p]) =
        chSum 5 t + (if p.1 = 5 then adcToVolts p.2 else 0) := by
      simp [chSum]
    unfold decStep
    rw [if_pos hD]
    rw [hchs4, hchs5]
    by_cases h4 : p.1 = 4
    · simp only [h4, if_pos rfl]
      norm_num
      ring
    · by_cases h5 : p.1 = 5
      · simp only [h4, h5, if_neg, if_pos rfl]
        norm_num
        ring
      · simp only [if_neg h4, if_neg h5]
        norm_num

/-- `chCount` over `k` flattened copies of a block. -/
theorem chCount_flatten_replicate (c k : ℕ) (bl : List (ℕ × ℕ)) :
    chCount c ((List.replicate k bl).flatten) = k * chCount c bl := by
  induction k with
  | zero => simp [chCount]
  | succ n ih =>
    simp only [List.replicate_succ, List.flatten_cons, chCount,
      List.filter_append, List.length_append] at *
    rw [ih]
    ring

/-- `chSum` over `k` flattened copies of a block. -/
theorem chSum_flatten_replicate (c k : ℕ) (bl : List (ℕ × ℕ)) :
    chSum c ((List.replicate k bl).flatten) = k * chSum c bl := by
  induction k with
  | zero => simp [chSum]
  | succ n ih =>
    simp only [List.replicate_succ, List.flatten_cons, chSum,
      List.map_append, List.sum_append] at *
    rw [ih]
    push_cast
    ring

/-- Running the decimator over `m` alternating channel-4/channel-5 blocks
that complete one decimation period: starting with channel-4 sum `sv` and
counter `2*i`, it emits exactly one pair, whose channel-4 component is the
accumulated sum divided by the full `DECIMATION_FACTOR` even though
channel 4 contributed only half of the period's samples. -/
theorem decAlt_blocks :
    ∀ (m i : ℕ) (sv : ℚ) (os : List (ℚ × ℚ)), i + m = 1000 → 1 ≤ m →
      decRunFrom ⟨sv, 0, 2 * i, os⟩
          ((List.replicate m [((4 : ℕ), (4095 : ℕ)), ((5 : ℕ), (0 : ℕ))]).flatten) =
        ⟨0, 0, 0, os ++
          [((sv + m * (33 / 10)) / (DECIMATION_FACTOR : ℚ), 0)]⟩ := by
  intro m
  induction m with
  | zero =>
    intro i sv os _ hm
    exact absurd hm (by norm_num)
  | succ n ih =>
    intro i sv os hi hm
    have hi' : i ≤ 999 := by omega
    have hsplit :
        (List.replicate (n + 1)
            [((4 : ℕ), (4095 : ℕ)), ((5 : ℕ), (0 : ℕ))]).flatten =
          [((4 : ℕ), (4095 : ℕ)), ((5 : ℕ), (0 : ℕ))] ++
            (List.replicate n
              [((4 : ℕ), (4095 : ℕ)), ((5 : ℕ), (0 : ℕ))]).flatten := by
      simp [List.replicate_succ]
    have hfold :
        decRunFrom ⟨sv, 0, 2 * i, os⟩
            ([((4 : ℕ), (4095 : ℕ)), ((5 : ℕ), (0 : ℕ))] ++
              (List.replicate n
                [((4 : ℕ), (4095 : ℕ)), ((5 : ℕ), (0 : ℕ))]).flatten) =
          decRunFrom
            (decStep (decStep ⟨sv, 0, 2 * i, os⟩ ((4 : ℕ), (4095 : ℕ)))
              ((5 : ℕ), (0 : ℕ)))
            ((List.replicate n
              [((4 : ℕ), (4095 : ℕ)), ((5 : ℕ), (0 : ℕ))]).flatten) := by
      simp [decRunFrom]
    have hs1 : decStep ⟨sv, 0, 2 * i, os⟩ ((4 : ℕ), (4095 : ℕ)) =
        ⟨sv + 33 / 10, 0, 2 * i + 1, os⟩ := by
      unfold decStep
      dsimp only
      rw [if_neg (by unfold DECIMATION_FACTOR; omega)]
      norm_num [adcToVolts]
    rw [hsplit, hfold, hs1]
    rcases Nat.eq_zero_or_pos n with hn | hn
    · subst hn
      have hi999 : i = 999 := by omega
      subst hi999
      have hs2 : decStep ⟨sv + 33 / 10, 0, 2 * 999 + 1, os⟩ ((5 : ℕ), (0 : ℕ)) =
          ⟨0, 0, 0, os ++ [((sv + 33 / 10) / (DECIMATION_FACTOR : ℚ), 0)]⟩ := by
        unfold decStep
        dsimp only
        rw [if_pos (by unfold DECIMATION_FACTOR; omega)]
        norm_num [adcToVolts, DECIMATION_FACTOR]
      rw [hs2]
      simp only [decRunFrom, List.foldl_nil]
      norm_num
    · have hs2 : decStep ⟨sv + 33 / 10, 0, 2 * i + 1, os⟩ ((5 : ℕ), (0 : ℕ)) =
          ⟨sv + 33 / 10, 0, 2 * (i + 1), os⟩ := by
        unfold decStep
        dsimp only
        rw [if_neg (show ¬ DECIMATION_FACTOR ≤ 2 * i + 1 + 1 by
          unfold DECIMATION_FACTOR; omega)]
        norm_num [adcToVolts]
        ring
      rw [hs2, ih (i + 1) (sv + 33 / 10) os (by omega) hn]
      have harith : sv + 33 / 10 + (n : ℚ) * (33 / 10) =
          sv + ((n : ℕ) + 1 : ℚ) * (33 / 10) := by ring
      rw [harith]
      push_cast
      ring_nf

/-- On the alternating 4000-sample input the decimator emits two pairs,
each with channel-4 component `33/20` (half the 3.3 V full-scale value,
because the per-period channel-4 sum is divided by the shared factor
2000 although channel 4 contributed only 1000 samples). -/
theorem decAlt_outs :
    (runDecimator decAlternatingInput).outs = [(33 / 20, 0), (33 / 20, 0)] := by
  unfold runDecimator decAlternatingInput
  have h2000 : List.replicate 2000 [((4 : ℕ), (4095 : ℕ)), ((5 : ℕ), (0 : ℕ))] =
      List.replicate 1000 [((4 : ℕ), (4095 : ℕ)), ((5 : ℕ), (0 : ℕ))] ++
        List.replicate 1000 [((4 : ℕ), (4095 : ℕ)), ((5 : ℕ), (0 : ℕ))] := by
    rw [← List.replicate_add]
  rw [h2000, List.flatten_append]
  have hfold : ∀ (s : DecState) (A B : List (ℕ × ℕ)),
      decRunFrom s (A ++ B) = decRunFrom (decRunFrom s A) B := by
    intro s A B
    simp [decRunFrom]
  rw [hfold]
  have h1 := decAlt_blocks 1000 0 0 [] (by norm_num) (by norm_num)
  norm_num [DECIMATION_FACTOR] at h1
  rw [h1]
  have h2 := decAlt_blocks 1000 0 0 [((33 : ℚ) / 20, (0 : ℚ))]
    (by norm_num) (by norm_num)
  norm_num [DECIMATION_FACTOR] at h2
  rw [h2]

/-- C1, amended: the decimation counter is shared by both channels and
counts every raw sample, so a `VoltagePair` is emitted after every
`DECIMATION_FACTOR` raw samples *in total* (not per channel): for any list
of exactly `DECIMATION_FACTOR` raw samples processed from a reset state,
exactly one pair is emitted, each component being that channel's
accumulated voltage sum divided by `DECIMATION_FACTOR` (this equals the
channel mean only when every sample of the period belongs to that
channel), and immediately afterward both sums and the counter are zero. -/
theorem decimator_total_count_mean (l : List (ℕ × ℕ))
    (h : l.length = DECIMATION_FACTOR) :
    runDecimator l = ⟨0, 0, 0,
      [(chSum 4 l / (DECIMATION_FACTOR : ℚ),
        chSum 5 l / (DECIMATION_FACTOR : ℚ))]⟩ := by
  unfold runDecimator
  have hne : l ≠ [] := by
    intro hl
    rw [hl] at h
    simp [DECIMATION_FACTOR] at h
  have hrun := decRunFrom_emit l ⟨0, 0, 0, []⟩ (by simpa using h) hne
  simpa using hrun

/-- C1, witness: 2000 alternating full-scale samples (1000 per channel)
emit one pair with each component the channel sum over 2000. -/
theorem decimator_total_count_mean_witness :
    decWitnessInput.length = DECIMATION_FACTOR ∧
      runDecimator decWitnessInput = ⟨0, 0, 0,
        [(chSum 4 decWitnessInput / (DECIMATION_FACTOR : ℚ),
          chSum 5 decWitnessInput / (DECIMATION_FACTOR : ℚ))]⟩ := by
  have hl : decWitnessInput.length = DECIMATION_FACTOR := by
    unfold decWitnessInput
    rw [List.length_flatten, List.map_replicate, List.sum_replicate]
    norm_num [smul_eq_mul, DECIMATION_FACTOR]
  exact ⟨hl, decimator_total_count_mean decWitnessInput hl⟩

/-- C1, counterexample: on the alternating input each channel receives
exactly `DECIMATION_FACTOR` (2000) raw samples, yet the emitted output is
*not* the single pair of per-channel arithmetic means: the code emits two
pairs (one per 2000 *total* samples), each holding half the channel-4 mean
(`33/20` instead of `33/10`). -/
theorem decimator_per_channel_mean_cex :
    chCount 4 decAlternatingInput = DECIMATION_FACTOR ∧
    chCount 5 decAlternatingInput = DECIMATION_FACTOR ∧
    (runDecimator decAlternatingInput).outs ≠
      [(chSum 4 decAlternatingInput / (chCount 4 decAlternatingInput : ℚ),
        chSum 5 decAlternatingInput / (chCount 5 decAlternatingInput : ℚ))] := by
  refine ⟨?_, ?_, ?_⟩
  · unfold decAlternatingInput
    rw [chCount_flatten_replicate]
    norm_num [chCount, DECIMATION_FACTOR]
  · unfold decAlternatingInput
    rw [chCount_flatten_replicate]
    norm_num [chCount, DECIMATION_FACTOR]
  · rw [decAlt_outs]
    intro hcontra
    have hlen := congrArg List.length hcontra
    simp at hlen

/-! ## C4: baseline estimator -/

/-- `ringWindow_set`, case: fewer than 99 samples so far. -/
theorem ringWindow_set_a1 (t : List ℚ) (x : ℚ) (hlt2 : t.length + 1 < 100) :
    (ringWindow t).set (t.length % 100) x = ringWindow (t ++ [x]) := by
  have hlt : t.length < 100 := by omega
  have hA : (t.drop (t.length - t.length % 100)).length = t.length % 100 := by
    rw [List.length_drop]
    omega
  unfold ringWindow
  simp only [List.length_append, List.length_singleton]
  rw [List.set_append_right _ _ hA.le, hA, Nat.sub_self]
  have hr : t.length % 100 = t.length := Nat.mod_eq_of_lt hlt
  rw [hr, Nat.sub_self, List.drop_zero, if_neg (by omega)]
  have h1 : 100 - t.length = (99 - t.length) + 1 := by omega
  rw [h1, List.replicate_succ, List.set_cons_zero]
  have hr2 : (t.length + 1) % 100 = t.length + 1 := Nat.mod_eq_of_lt hlt2
  rw [hr2, Nat.sub_self, List.drop_zero, if_neg (by omega)]
  have h2 : 100 - (t.length + 1) = 99 - t.length := by omega
  rw [h2, List.append_assoc, List.singleton_append]

/-- `ringWindow_set`, case: exactly the 100th sample (first fill). -/
theorem ringWindow_set_a2 (t : List ℚ) (x : ℚ) (h99 : t.length = 99) :
    (ringWindow t).set (t.length % 100) x = ringWindow (t ++ [x]) := by
  have hlt : t.length < 100 := by omega
  have hA : (t.drop (t.length - t.length % 100)).length = t.length % 100 := by
    rw [List.length_drop]
    omega
  unfold ringWindow
  simp only [List.length_append, List.length_singleton]
  rw [List.set_append_right _ _ hA.le, hA, Nat.sub_self]
  have hr : t.length % 100 = t.length := Nat.mod_eq_of_lt hlt
  rw [hr, Nat.sub_self, List.drop_zero, if_neg (by omega)]
  have h1 : 100 - t.length = (99 - t.length) + 1 := by omega
  rw [h1, List.replicate_succ, List.set_cons_zero]
  have hr2 : (t.length + 1) % 100 = 0 := by omega
  rw [hr2, Nat.sub_zero, if_pos (by omega)]
  rw [List.drop_eq_nil_of_le
    (show (t ++ [x]).length ≤ t.length + 1 by simp)]
  rw [show t.length + 1 - 100 = 0 by omega, List.drop_zero, Nat.sub_zero]
  rw [List.take_of_length_le (show (t ++ [x]).length ≤ 100 by
    simp only [List.length_append, List.length_singleton]; omega)]
  rw [show 99 - t.length = 0 by omega, List.replicate_zero]
  simp

/-- Dropping all but the last 100 elements of a full history exposes the
oldest retained sample at the head. -/
theorem drop_sub100_cons (t : List ℚ) (hge : 100 ≤ t.length) :
    t.drop (t.length - 100) =
      t.get ⟨t.length - 100, by omega⟩ :: t.drop (t.length - 99) := by
  have h : t.drop (t.length - 100) =
      t.get ⟨t.length - 100, by omega⟩ :: t.drop (t.length - 100 + 1) :=
    List.drop_eq_getElem_cons (by omega)
  rw [show t.length - 100 + 1 = t.length - 99 by omega] at h
  exact h

/-- Dropping at most `t.length` elements of `t ++ [x]` keeps the appended
sample. -/
theorem drop_append_sub (t : List ℚ) (x : ℚ) (m : ℕ) (hm : m ≤ t.length) :
    (t ++ [x]).drop m = t.drop m ++ [x] := by
  rw [List.drop_append_eq_append_drop,
    show m - t.length = 0 by omega, List.drop_zero]

/-- Taking at most `l.length` elements of `l ++ [x]` never reaches the
appended sample. -/
theorem take_append_sub (l : List ℚ) (x : ℚ) (j : ℕ) (hj : j ≤ l.length) :
    (l ++ [x]).take j = l.take j := by
  rw [List.take_append_eq_append_take,
    show j - l.length = 0 by omega, List.take_zero, List.append_nil]

/-- Left-hand side of the full-buffer, non-wrapping case: the written
window in explicit form. -/
theorem ringWindow_set_b1_lhs (t : List ℚ) (x : ℚ) (hge : 100 ≤ t.length)
    (hr98 : t.length % 100 ≤ 98) :
    (ringWindow t).set (t.length % 100) x =
      t.drop (t.length - t.length % 100) ++
        x :: (t.drop (t.length - 99)).take (99 - t.length % 100) := by
  have hA : (t.drop (t.length - t.length % 100)).length = t.length % 100 := by
    rw [List.length_drop]
    omega
  unfold ringWindow
  rw [if_pos hge, List.set_append_right _ _ hA.le, hA, Nat.sub_self,
    drop_sub100_cons t hge,
    show 100 - t.length % 100 = (99 - t.length % 100) + 1 by omega,
    List.take_succ_cons, List.set_cons_zero]

/-- Right-hand side of the full-buffer, non-wrapping case: the next window
in the same explicit form. -/
theorem ringWindow_set_b1_rhs (t : List ℚ) (x : ℚ) (hge : 100 ≤ t.length)
    (hr98 : t.length % 100 ≤ 98) :
    ringWindow (t ++ [x]) =
      t.drop (t.length - t.length % 100) ++
        x :: (t.drop (t.length - 99)).take (99 - t.length % 100) := by
  unfold ringWindow
  simp only [List.length_append, List.length_singleton]
  rw [show (t.length + 1) % 100 = t.length % 100 + 1 by omega,
    if_pos (show (100 : ℕ) ≤ t.length + 1 by omega),
    show t.length + 1 - (t.length % 100 + 1) =
      t.length - t.length % 100 by omega,
    show t.length + 1 - 100 = t.length - 99 by omega,
    show 100 - (t.length % 100 + 1) = 99 - t.length % 100 by omega,
    drop_append_sub t x (t.length - t.length % 100) (by omega),
    drop_append_sub t x (t.length - 99) (by omega),
    take_append_sub (t.drop (t.length - 99)) x (99 - t.length % 100)
      (by rw [List.length_drop]; omega),
    List.append_assoc, List.singleton_append]

/-- `ringWindow_set`, case: buffer full, cursor not at the last slot. -/
theorem ringWindow_set_b1 (t : List ℚ) (x : ℚ) (hge : 100 ≤ t.length)
    (hr98 : t.length % 100 ≤ 98) :
    (ringWindow t).set (t.length % 100) x = ringWindow (t ++ [x]) :=
  (ringWindow_set_b1_lhs t x hge hr98).trans
    (ringWindow_set_b1_rhs t x hge hr98).symm

/-- Left-hand side of the full-buffer, wrapping case: the written window in
explicit form. -/
theorem ringWindow_set_b2_lhs (t : List ℚ) (x : ℚ) (hge : 100 ≤ t.length)
    (hr99 : t.length % 100 = 99) :
    (ringWindow t).set (t.length % 100) x =
      t.drop (t.length - 99) ++ [x] := by
  have hA : (t.drop (t.length - t.length % 100)).length = t.length % 100 := by
    rw [List.length_drop]
    omega
  unfold ringWindow
  rw [if_pos hge, List.set_append_right _ _ hA.le, hA, Nat.sub_self]
  simp only [hr99]
  rw [drop_sub100_cons t hge,
    show 100 - 99 = 0 + 1 by omega,
    List.take_succ_cons, List.take_zero, List.set_cons_zero]

/-- Right-hand side of the full-buffer, wrapping case: the next window in
the same explicit form. -/
theorem ringWindow_set_b2_rhs (t : List ℚ) (x : ℚ) (hge : 100 ≤ t.length)
    (hr99 : t.length % 100 = 99) :
    ringWindow (t ++ [x]) = t.drop (t.length - 99) ++ [x] := by
  unfold ringWindow
  simp only [List.length_append, List.length_singleton]
  rw [show (t.length + 1) % 100 = 0 by omega, Nat.sub_zero,
    if_pos (show (100 : ℕ) ≤ t.length + 1 by omega),
    List.drop_eq_nil_of_le
      (show (t ++ [x]).length ≤ t.length + 1 by simp),
    List.nil_append,
    show t.length + 1 - 100 = t.length - 99 by omega,
    drop_append_sub t x (t.length - 99) (by omega),
    List.take_of_length_le
      (show (t.drop (t.length - 99) ++ [x]).length ≤ 100 by
        simp only [List.length_append, List.length_drop,
          List.length_singleton]
        omega)]

/-- `ringWindow_set`, case: buffer full, cursor wrapping at the last
slot. -/
theorem ringWindow_set_b2 (t : List ℚ) (x : ℚ) (hge : 100 ≤ t.length)
    (hr99 : t.length % 100 = 99) :
    (ringWindow t).set (t.length % 100) x = ringWindow (t ++ [x]) :=
  (ringWindow_set_b2_lhs t x hge hr99).trans
    (ringWindow_set_b2_rhs t x hge hr99).symm

/-- One push updates the predicted ring-buffer contents: writing the new
sample into slot `t.length % 100` of `ringWindow t` yields
`ringWindow (t ++ [x])`. -/
theorem ringWindow_set (t : List ℚ) (x : ℚ) :
    (ringWindow t).set (t.length % 100) x = ringWindow (t ++ [x]) := by
  by_cases hlt : t.length < 100
  · by_cases hlt2 : t.length + 1 < 100
    · exact ringWindow_set_a1 t x hlt2
    · exact ringWindow_set_a2 t x (by omega)
  · by_cases hr98 : t.length % 100 ≤ 98
    · exact ringWindow_set_b1 t x (by omega) hr98
    · exact ringWindow_set_b2 t x (by omega) (by omega)

/-- The state of the baseline estimator after pushing the history `xs` is
fully determined: buffer `ringWindow xs`, cursor `xs.length % 100`, full
iff at least 100 samples were pushed, and the baseline is the buffer mean
once full. -/
theorem runPower_spec (xs : List ℚ) :
    runPower xs = ⟨ringWindow xs, xs.length % 100, decide (100 ≤ xs.length),
      if 100 ≤ xs.length then
        some ((ringWindow xs).sum / (POWER_BUFFER_SIZE : ℚ))
      else none⟩ := by
  induction xs using List.reverseRecOn with
  | nil =>
    simp [runPower, powerInit, ringWindow, POWER_BUFFER_SIZE]
  | append_singleton t x ih =>
    have hrun : runPower (t ++ [x]) = nilmPush (runPower t) x := by
      simp [runPower, List.foldl_append]
    rw [hrun, ih]
    unfold nilmPush
    dsimp only
    simp only [POWER_BUFFER_SIZE, List.length_append, List.length_singleton]
    have hidx : (t.length % 100 + 1) % 100 = (t.length + 1) % 100 := by
      omega
    have hfull : (decide (100 ≤ t.length) ||
        decide ((t.length + 1) % 100 = 0)) =
        decide (100 ≤ t.length + 1) := by
      rw [Bool.eq_iff_iff]
      simp only [Bool.or_eq_true, decide_eq_true_eq]
      omega
    simp only [hidx, hfull, ringWindow_set]
    by_cases hge : 100 ≤ t.length + 1
    · simp [hge]
    · simp [hge, show ¬ (100 : ℕ) ≤ t.length by omega]

/-- Once full, the predicted buffer is a rotation of the last 100 pushed
samples, so their sums agree. -/
theorem ringWindow_sum (xs : List ℚ) (h : 100 ≤ xs.length) :
    (ringWindow xs).sum = (xs.drop (xs.length - 100)).sum := by
  unfold ringWindow
  rw [if_pos h, List.sum_append]
  have h1 : (xs.drop (xs.length - 100)).drop (100 - xs.length % 100) =
      xs.drop (xs.length - xs.length % 100) := by
    rw [List.drop_drop]
    congr 1
    omega
  conv_rhs => rw [← List.take_append_drop (100 - xs.length % 100)
    (xs.drop (xs.length - 100))]
  rw [List.sum_append, h1]
  ring

/-- C4: `baseline` is unavailable before the ring buffer has received
`POWER_BUFFER_SIZE` (100) power samples, and from the first fill onward,
after every push, it equals the arithmetic mean of the last 100 samples
pushed (sliding-window mean). -/
theorem baseline_sliding_window_mean (xs : List ℚ) :
    (xs.length < POWER_BUFFER_SIZE → (runPower xs).baseline = none) ∧
    (POWER_BUFFER_SIZE ≤ xs.length →
      (runPower xs).baseline =
        some ((xs.drop (xs.length - POWER_BUFFER_SIZE)).sum /
          (POWER_BUFFER_SIZE : ℚ))) := by
  rw [runPower_spec]
  constructor
  · intro h
    simp only [POWER_BUFFER_SIZE] at h
    dsimp only
    rw [if_neg (by omega)]
  · intro h
    simp only [POWER_BUFFER_SIZE] at h
    dsimp only
    rw [if_pos h, ringWindow_sum xs h]
    simp only [POWER_BUFFER_SIZE]

/-- C4, witness: after pushing 100 samples of value 1 the baseline is
available and equals the mean of the last 100 pushed samples. -/
theorem baseline_sliding_window_witness :
    POWER_BUFFER_SIZE ≤ (List.replicate 100 (1 : ℚ)).length ∧
      (runPower (List.replicate 100 (1 : ℚ))).baseline =
        some (((List.replicate 100 (1 : ℚ)).drop
            ((List.replicate 100 (1 : ℚ)).length - POWER_BUFFER_SIZE)).sum /
          (POWER_BUFFER_SIZE : ℚ)) := by
  have h : POWER_BUFFER_SIZE ≤ (List.replicate 100 (1 : ℚ)).length := by
    simp [POWER_BUFFER_SIZE]
  exact ⟨h, (baseline_sliding_window_mean (List.replicate 100 (1 : ℚ))).2 h⟩

end NILM
